import Mathlib

/-!
Verification development for the BioGate facial-access-control backend.

The embedding below follows the Python source:
* `src/app/model_utils.py` — `recognize` (cosine-similarity match over the
  enrolled vectors, threshold decision, access logging);
* `src/app/db.py` — `get_vectors`, `log_access`;
* `src/app/main.py` — `buscar_coincidencia` (SQL nearest-neighbour query) and
  the `/clasificar` endpoint;
* the attendance classifier, which has no source file in the snapshot, is
  modelled from the specification (section 4.4) and marked as such.

Embeddings are lists of real numbers; the floating-point arithmetic of the
source is modelled by exact real arithmetic.
-/

namespace BioGate

/-- A face embedding: a fixed-length vector of floats, modelled as `List ℝ`. -/
abbrev Vec := List ℝ

/-- Dot product of two vectors (componentwise product, summed). -/
def dot (a b : Vec) : ℝ := (List.zipWith (· * ·) a b).sum

/-- Euclidean norm, as used by `sklearn.metrics.pairwise.cosine_similarity`
and by pgvector's cosine operator. -/
noncomputable def vec_norm (a : Vec) : ℝ := Real.sqrt (dot a a)

/-- Cosine similarity `dot a b / (‖a‖ * ‖b‖)`.  This is the value
`cosine_similarity([a],[b])[0][0]` in `model_utils.recognize` and the value
`1 - (vector <=> query)` in `buscar_coincidencia`. -/
noncomputable def cosineSim (a b : Vec) : ℝ := dot a b / (vec_norm a * vec_norm b)

/-- Index of the first maximal element of a list of reals, exactly the
behaviour of `np.argmax` (ties resolved to the earliest index). -/
noncomputable def argmaxIdx : List ℝ → Nat
  | [] => 0
  | [_] => 0
  | x :: y :: ys =>
      let k := argmaxIdx (y :: ys)
      if x < (y :: ys).getD k 0 then k + 1 else 0

/-- A row of the `personas` table (the columns the core consults). -/
structure Persona where
  id_persona : Nat
  nombre : String
  activo : Bool

/-- The database state visible to the matching core: the `personas` table and
the `vectores_identificacion` table (pairs `(id_persona, vector)`). -/
structure DB where
  personas : List Persona
  vectores : List (Nat × Vec)

/-- `db.get_vectors`: `SELECT id_persona, vector FROM vectores_identificacion`,
returned in table order. -/
def get_vectors (db : DB) : List (Nat × Vec) := db.vectores

/-- One row of `historial_accesos` as written by `db.log_access`. -/
structure LogEntry where
  id_persona : Option Nat
  confianza : ℝ
  resultado : String

/-- `db.log_access`: appends one row to `historial_accesos`. -/
def log_access (log : List LogEntry) (id : Option Nat) (conf : ℝ)
    (res : String) : List LogEntry :=
  log ++ [⟨id, conf, res⟩]

/-- The similarity row `cosine_similarity([embedding], stored_vectors)[0]`
computed inside `recognize`: one cosine similarity per enrolled record, in
enrolment order. -/
noncomputable def recognizeSims (db : DB) (embedding : Vec) : List ℝ :=
  (get_vectors db).map (fun r => cosineSim embedding r.2)

/-- The active flag of an identity, as stored in `personas.activo`
(false when the identity is absent). -/
def isActive (personas : List Persona) (i : Nat) : Bool :=
  ((personas.find? (fun p => p.id_persona == i)).map Persona.activo).getD false

/-- The value `sims[max_idx]` computed inside `recognize`: the similarity of
the best-matching enrolled record. -/
noncomputable def bestSim (db : DB) (embedding : Vec) : ℝ :=
  (recognizeSims db embedding).getD (argmaxIdx (recognizeSims db embedding)) 0

/-- The value `ids[max_idx]` computed inside `recognize`: the identity that
owns the best-matching enrolled record. -/
noncomputable def bestId (db : DB) (embedding : Vec) : Nat :=
  ((get_vectors db).map Prod.fst).getD
    (argmaxIdx (recognizeSims db embedding)) 0

/-- `model_utils.recognize`.  Mirrors the Python line by line:
`vectors = get_vectors()`; `ids, stored_vectors = zip(*vectors)` (which raises
`ValueError` when `vectors` is empty); `sims = cosine_similarity(...)`;
`max_idx = np.argmax(sims)`; then the strict threshold test, one `log_access`
call on each branch, and the returned pair.  The written log rows are returned
alongside the result; a raised Python exception is an `Except.error`. -/
noncomputable def recognize (db : DB) (embedding : Vec) (threshold : ℝ) :
    Except String ((Option Nat × ℝ) × List LogEntry) :=
  match get_vectors db with
  | [] => .error "ValueError: not enough values to unpack"
  | _ :: _ =>
      if threshold < bestSim db embedding then
        .ok ((some (bestId db embedding), bestSim db embedding),
             log_access [] (some (bestId db embedding))
               (bestSim db embedding) "Éxito")
      else
        .ok ((none, bestSim db embedding),
             log_access [] none (bestSim db embedding) "Desconocido")

/-- `main.buscar_coincidencia`: the SQL query joins `vectores_identificacion`
with `personas` on `id_persona`, computes `similitud = 1 - (vector <=> query)`
(cosine similarity), keeps rows with `similitud > threshold`, orders by
`similitud DESC LIMIT 1` and returns `fetchone()` — `none` when no row
qualifies.  Only the `(id_persona, similitud)` columns of the selected row are
modelled; the name/email columns are copied verbatim from `personas` and play
no role in the decision.  Ties are resolved to the earliest table row. -/
noncomputable def buscar_coincidencia (db : DB) (embedding : Vec)
    (threshold : ℝ) : Option (Nat × ℝ) :=
  let joined := db.vectores.filterMap (fun r =>
    (db.personas.find? (fun p => p.id_persona == r.1)).map
      (fun _ => (r.1, cosineSim embedding r.2)))
  let filtered := joined.filter (fun c => threshold < c.2)
  match filtered with
  | [] => none
  | _ :: _ => some (filtered.getD (argmaxIdx (filtered.map Prod.snd)) (0, 0))

/-- Response of the `/clasificar` endpoint. -/
inductive ClasResp where
  | success (id : Nat) (similitud : ℝ)
  | no_match
  | http_error (code : Nat)

/-- `main.clasificar`: the face-extraction step is modelled by its outcome
(`none` = `extraer_rostro` raised "no face" / "invalid area", in which case the
except-clause re-raises HTTP 500; `some e` = an embedding was produced).  The
endpoint calls `buscar_coincidencia` and returns the success or `no_match`
JSON.  The second component is the list of `historial_accesos` rows written
during the request: the endpoint contains no `log_access` call, so it is empty
on every path. -/
noncomputable def clasificar (db : DB) (face : Option Vec) (threshold : ℝ) :
    ClasResp × List LogEntry :=
  match face with
  | none => (.http_error 500, [])
  | some e =>
      match buscar_coincidencia db e threshold with
      | some r => (.success r.1 r.2, [])
      | none => (.no_match, [])

/-- Attendance classification labels. -/
inductive Etiqueta where
  | ENTRADA
  | RETRASO
  | SALIDA
  | HORAS_EXTRAS
deriving DecidableEq

/-- A work shift: entry time, exit time (minutes since midnight) and tolerance
in minutes. -/
structure Shift where
  entry_time : ℚ
  exit_time : ℚ
  tolerance_minutes : ℚ

/-- Modelled from the spec: the attendance classifier
(`AttendanceClassifier.classify`, spec section 4.4) has no source file in the
snapshot.  Given a time of day `t` in minutes and a resolved shift (or `none`
for a non-work day), with `limit_entry = entry + tolerance` and
`limit_exit = exit + 120`, the windows are: non-work day → `HORAS_EXTRAS`
with the 8-hour constant; `t < entry` → `HORAS_EXTRAS` with `(entry - t)/60`
hours; `entry ≤ t ≤ limit_entry` → `ENTRADA`; `limit_entry < t ≤ exit` →
`RETRASO`; `exit < t ≤ limit_exit` → `SALIDA`; `t > limit_exit` →
`HORAS_EXTRAS` with `(t - limit_exit)/60` hours.  Returns
`(label, overtime_hours, is_work_day)`. -/
def classify (t : ℚ) (shift : Option Shift) : Etiqueta × ℚ × Bool :=
  match shift with
  | none => (.HORAS_EXTRAS, 8, false)
  | some s =>
      let limit_entry := s.entry_time + s.tolerance_minutes
      let limit_exit := s.exit_time + 120
      if t < s.entry_time then (.HORAS_EXTRAS, (s.entry_time - t) / 60, true)
      else if t ≤ limit_entry then (.ENTRADA, 0, true)
      else if t ≤ s.exit_time then (.RETRASO, 0, true)
      else if t ≤ limit_exit then (.SALIDA, 0, true)
      else (.HORAS_EXTRAS, (t - limit_exit) / 60, true)

/-- The shift of claim C8: entry 08:00, tolerance 10 minutes, exit 17:00. -/
def defaultShift : Shift := ⟨480, 1020, 10⟩

/-! ### Basic lemmas about `argmaxIdx` (the `np.argmax` model) -/

lemma argmaxIdx_cons_cons (x y : ℝ) (ys : List ℝ) :
    argmaxIdx (x :: y :: ys) =
      if x < (y :: ys).getD (argmaxIdx (y :: ys)) 0 then argmaxIdx (y :: ys) + 1
      else 0 := rfl

lemma argmaxIdx_lt_length : ∀ (l : List ℝ), l ≠ [] → argmaxIdx l < l.length
  | [], h => absurd rfl h
  | [_], _ => Nat.zero_lt_one
  | x :: y :: ys, _ => by
      rw [argmaxIdx_cons_cons]
      split
      · have := argmaxIdx_lt_length (y :: ys) (List.cons_ne_nil _ _)
        simpa using Nat.succ_lt_succ this
      · simp

lemma getD_le_argmaxIdx :
    ∀ (l : List ℝ) (j : Nat), j < l.length →
      l.getD j 0 ≤ l.getD (argmaxIdx l) 0
  | [], j, hj => by simp at hj
  | [x], j, hj => by
      have hj0 : j = 0 := Nat.lt_one_iff.mp (by simpa using hj)
      subst hj0
      simp [argmaxIdx]
  | x :: y :: ys, j, hj => by
      rw [argmaxIdx_cons_cons]
      by_cases hx : x < (y :: ys).getD (argmaxIdx (y :: ys)) 0
      · rw [if_pos hx]
        cases j with
        | zero => simpa using hx.le
        | succ j =>
            simp only [List.getD_cons_succ]
            exact getD_le_argmaxIdx (y :: ys) j (by simpa using hj)
      · rw [if_neg hx]
        push_neg at hx
        cases j with
        | zero => simp
        | succ j =>
            simp only [List.getD_cons_succ, List.getD_cons_zero]
            exact le_trans (getD_le_argmaxIdx (y :: ys) j (by simpa using hj)) hx

lemma getD_lt_argmaxIdx_of_lt :
    ∀ (l : List ℝ) (j : Nat), j < argmaxIdx l →
      l.getD j 0 < l.getD (argmaxIdx l) 0
  | [], j, hj => by simp [argmaxIdx] at hj
  | [_], j, hj => by simp [argmaxIdx] at hj
  | x :: y :: ys, j, hj => by
      rw [argmaxIdx_cons_cons] at hj ⊢
      by_cases hx : x < (y :: ys).getD (argmaxIdx (y :: ys)) 0
      · rw [if_pos hx] at hj ⊢
        cases j with
        | zero => simpa using hx
        | succ j =>
            simp only [List.getD_cons_succ]
            exact getD_lt_argmaxIdx_of_lt (y :: ys) j (Nat.lt_of_succ_lt_succ hj)
      · rw [if_neg hx] at hj
        exact absurd hj (Nat.not_lt_zero j)

/-- The selected index is the least index attaining the maximum. -/
lemma argmaxIdx_le_of_getD_eq (l : List ℝ) (j : Nat)
    (h : l.getD j 0 = l.getD (argmaxIdx l) 0) : argmaxIdx l ≤ j := by
  by_contra hlt
  push_neg at hlt
  exact absurd h (ne_of_lt (getD_lt_argmaxIdx_of_lt l j hlt))

/-! ### Basic lemmas about `dot`, `vec_norm` and `cosineSim` -/

lemma dot_nil_left (b : Vec) : dot [] b = 0 := rfl

lemma dot_nil_right (a : Vec) : dot a [] = 0 := by
  cases a <;> rfl

lemma dot_cons (x y : ℝ) (xs ys : Vec) :
    dot (x :: xs) (y :: ys) = x * y + dot xs ys := by
  simp [dot]

lemma dot_self_nonneg : ∀ (v : Vec), 0 ≤ dot v v
  | [] => le_refl 0
  | x :: xs => by
      rw [dot_cons]
      exact add_nonneg (mul_self_nonneg x) (dot_self_nonneg xs)

lemma dot_self_pos : ∀ (v : Vec), (∃ x ∈ v, x ≠ 0) → 0 < dot v v
  | [], h => by simp at h
  | x :: xs, h => by
      rw [dot_cons]
      rcases h with ⟨z, hz, hz0⟩
      rcases List.mem_cons.mp hz with hzx | hzxs
      · subst hzx
        exact add_pos_of_pos_of_nonneg (mul_self_pos.mpr hz0) (dot_self_nonneg xs)
      · exact add_pos_of_nonneg_of_pos (mul_self_nonneg x)
          (dot_self_pos xs ⟨z, hzxs, hz0⟩)

lemma dot_eq_sum :
    ∀ (a b : Vec), dot a b =
      ∑ i ∈ Finset.range (min a.length b.length), a.getD i 0 * b.getD i 0
  | [], b => by simp [dot_nil_left]
  | x :: xs, [] => by simp [dot_nil_right]
  | x :: xs, y :: ys => by
      rw [dot_cons, dot_eq_sum xs ys]
      rw [List.length_cons, List.length_cons, Nat.succ_min_succ,
        Finset.sum_range_succ']
      simp [add_comm]

lemma dot_self_eq_sum (a : Vec) :
    dot a a = ∑ i ∈ Finset.range a.length, (a.getD i 0) ^ 2 := by
  rw [dot_eq_sum, min_self]
  exact Finset.sum_congr rfl (fun i _ => (sq (a.getD i 0)).symm)

/-- Cauchy–Schwarz for the (length-truncating) dot product. -/
lemma dot_sq_le (a b : Vec) : (dot a b) ^ 2 ≤ dot a a * dot b b := by
  have hcs := Finset.sum_mul_sq_le_sq_mul_sq
    (Finset.range (min a.length b.length)) (fun i => a.getD i 0)
    (fun i => b.getD i 0)
  rw [dot_eq_sum a b]
  refine le_trans hcs (mul_le_mul ?_ ?_ ?_ ?_)
  · rw [dot_self_eq_sum a]
    exact Finset.sum_le_sum_of_subset_of_nonneg
      (Finset.range_subset.mpr (min_le_left _ _))
      (fun i _ _ => sq_nonneg _)
  · rw [dot_self_eq_sum b]
    exact Finset.sum_le_sum_of_subset_of_nonneg
      (Finset.range_subset.mpr (min_le_right _ _))
      (fun i _ _ => sq_nonneg _)
  · exact Finset.sum_nonneg (fun i _ => sq_nonneg _)
  · exact dot_self_nonneg a

lemma vec_norm_nonneg (a : Vec) : 0 ≤ vec_norm a := Real.sqrt_nonneg _

lemma dot_le_norm_mul_norm (a b : Vec) : dot a b ≤ vec_norm a * vec_norm b := by
  have h1 : dot a b ≤ Real.sqrt ((dot a b) ^ 2) := by
    rw [Real.sqrt_sq_eq_abs]
    exact le_abs_self _
  refine le_trans h1 ?_
  rw [vec_norm, vec_norm, ← Real.sqrt_mul (dot_self_nonneg a)]
  exact Real.sqrt_le_sqrt (dot_sq_le a b)

/-- Cosine similarity never exceeds 1. -/
lemma cosineSim_le_one (a b : Vec) : cosineSim a b ≤ 1 := by
  rw [cosineSim]
  rcases eq_or_lt_of_le
      (mul_nonneg (vec_norm_nonneg a) (vec_norm_nonneg b)) with h0 | hpos
  · rw [← h0, div_zero]
    exact zero_le_one
  · exact (div_le_one hpos).mpr (dot_le_norm_mul_norm a b)

/-- A vector with a non-zero entry has cosine similarity exactly 1 with
itself. -/
lemma cosineSim_self (v : Vec) (h : ∃ x ∈ v, x ≠ 0) : cosineSim v v = 1 := by
  have hpos := dot_self_pos v h
  rw [cosineSim, vec_norm, Real.mul_self_sqrt (dot_self_nonneg v)]
  exact div_self (ne_of_gt hpos)

/-! ### Lemmas about `recognizeSims` and `recognize` -/

lemma recognizeSims_length (db : DB) (e : Vec) :
    (recognizeSims db e).length = (get_vectors db).length := by
  simp [recognizeSims]

lemma recognizeSims_getD (db : DB) (e : Vec) (m : Nat)
    (hm : m < (get_vectors db).length) :
    (recognizeSims db e).getD m 0 =
      cosineSim e (((get_vectors db).getD m (0, [])).2) := by
  have hms : m < (recognizeSims db e).length := by
    rw [recognizeSims_length]; exact hm
  rw [List.getD_eq_getElem _ _ hms, List.getD_eq_getElem _ _ hm]
  simp [recognizeSims]

/-- Branch-level description of `recognize` on a non-empty enrolled set. -/
lemma recognize_spec (db : DB) (e : Vec) (θ : ℝ) (a : Nat × Vec)
    (as : List (Nat × Vec)) (hv : get_vectors db = a :: as) :
    recognize db e θ =
      if θ < bestSim db e then
        .ok ((some (bestId db e), bestSim db e),
             [⟨some (bestId db e), bestSim db e, "Éxito"⟩])
      else
        .ok ((none, bestSim db e), [⟨none, bestSim db e, "Desconocido"⟩]) := by
  unfold recognize
  rw [hv]
  simp [log_access]

/-! ### Concrete evaluations used by witnesses and counterexamples -/

lemma cosineSim_e1_e1 : cosineSim [1, 0] [1, 0] = 1 :=
  cosineSim_self [1, 0] ⟨1, by simp, one_ne_zero⟩

lemma dot_e1_e2 : dot [1, 0] [0, 1] = 0 := by
  simp [dot]

lemma cosineSim_e1_e2 : cosineSim [1, 0] [0, 1] = 0 := by
  rw [cosineSim, dot_e1_e2, zero_div]

lemma vec_norm_e1 : vec_norm [1, 0] = 1 := by
  have h : dot [1, 0] [1, 0] = 1 := by simp [dot]
  rw [vec_norm, h, Real.sqrt_one]

lemma vec_norm_d1 : vec_norm [2, 0] = 2 := by
  have h : dot [2, 0] [2, 0] = 4 := by norm_num [dot]
  rw [vec_norm, h, show (4 : ℝ) = 2 ^ 2 by norm_num,
    Real.sqrt_sq (by norm_num : (0 : ℝ) ≤ 2)]

lemma cosineSim_e1_d1 : cosineSim [1, 0] [2, 0] = 1 := by
  have h : dot [1, 0] [2, 0] = 2 := by norm_num [dot]
  rw [cosineSim, h, vec_norm_e1, vec_norm_d1]
  norm_num

/-- Evaluation of `recognize` on a one-record enrolment whose cosine
similarity with the query is 1 and whose threshold lies below 1. -/
lemma recognize_single (P : List Persona) (i : Nat) (v e : Vec) (θ : ℝ)
    (hcos : cosineSim e v = 1) (hθ : θ < 1) :
    recognize ⟨P, [(i, v)]⟩ e θ =
      .ok ((some i, 1), [⟨some i, 1, "Éxito"⟩]) := by
  have hsims : recognizeSims ⟨P, [(i, v)]⟩ e = [1] := by
    simp [recognizeSims, get_vectors, hcos]
  have hbest : bestSim ⟨P, [(i, v)]⟩ e = 1 := by
    rw [bestSim, hsims]
    simp [argmaxIdx]
  have hid : bestId ⟨P, [(i, v)]⟩ e = i := by
    rw [bestId, hsims]
    simp [argmaxIdx, get_vectors]
  rw [recognize_spec ⟨P, [(i, v)]⟩ e θ (i, v) [] rfl, hbest, hid, if_pos hθ]

/-- `recognize` on an empty enrolled set: `zip(*vectors)` raises. -/
lemma recognize_empty (db : DB) (e : Vec) (θ : ℝ)
    (hv : get_vectors db = []) :
    recognize db e θ = .error "ValueError: not enough values to unpack" := by
  unfold recognize
  rw [hv]

/-! ### Claim theorems -/

/-- C1 (counterexample): the claim says an inactive identity never produces
an accepted match even when it is the nearest enrolled record.  In the code,
identity 7 is inactive (`personas.activo = false`), is the nearest (only)
enrolled record with similarity 1 > 0.6, and `recognize` accepts it and logs
"Éxito": the active flag is never consulted. -/
theorem C1_counterexample :
    isActive [⟨7, "Ana", false⟩] 7 = false ∧
    recognize ⟨[⟨7, "Ana", false⟩], [(7, [1, 0])]⟩ [1, 0] 0.6 =
      .ok ((some 7, 1), [⟨some 7, 1, "Éxito"⟩]) :=
  ⟨rfl, recognize_single _ 7 [1, 0] [1, 0] 0.6 cosineSim_e1_e1 (by norm_num)⟩

/-- C1 (amended): on a non-empty enrolled set, `recognize` accepts a
candidate if and only if the top candidate's similarity strictly exceeds the
threshold.  The candidate identity's active flag plays no part in the
decision, so an inactive identity can produce an accepted match. -/
theorem C1_amended (db : DB) (e : Vec) (θ : ℝ)
    (h : get_vectors db ≠ []) :
    (∃ i s log, recognize db e θ = .ok ((some i, s), log)) ↔
      θ < bestSim db e := by
  obtain ⟨a, as, hv⟩ := List.exists_cons_of_ne_nil h
  rw [recognize_spec db e θ a as hv]
  by_cases hb : θ < bestSim db e
  · rw [if_pos hb]
    exact ⟨fun _ => hb, fun _ => ⟨bestId db e, bestSim db e, _, rfl⟩⟩
  · rw [if_neg hb]
    constructor
    · rintro ⟨i, s, log, heq⟩
      simp at heq
    · intro hcon
      exact absurd hcon hb

/-- C1 (witness): the amended accept-iff-above-threshold equivalence at a
concrete one-record enrolment. -/
theorem C1_witness :
    get_vectors ⟨[], [(1, [1, 0])]⟩ ≠ [] ∧
    ((∃ i s log, recognize ⟨[], [(1, [1, 0])]⟩ [1, 0] (1/2) =
        .ok ((some i, s), log)) ↔
      (1/2 : ℝ) < bestSim ⟨[], [(1, [1, 0])]⟩ [1, 0]) :=
  ⟨by simp [get_vectors], C1_amended _ _ _ (by simp [get_vectors])⟩

/-- C2 (counterexample): the claim says every recognition cycle writes
exactly one access record, including the no-face rejection path.  The
`/clasificar` pipeline contains no `log_access` call: on the no-face path it
returns an HTTP error having written zero `historial_accesos` rows. -/
theorem C2_counterexample :
    clasificar ⟨[], []⟩ none (7/10) = (.http_error 500, []) := rfl

/-- C2 (amended): the `clasificar` pipeline writes no access record on any
path (success, no-match, or no-face); the `recognize` path writes exactly one
record per call — on both the accept and the reject branch — whenever the
enrolled set is non-empty. -/
theorem C2_amended :
    (∀ (db : DB) (face : Option Vec) (θ : ℝ),
      (clasificar db face θ).2 = []) ∧
    (∀ (db : DB) (e : Vec) (θ : ℝ), get_vectors db ≠ [] →
      ∃ r en, recognize db e θ = .ok (r, [en])) := by
  constructor
  · intro db face θ
    cases face with
    | none => rfl
    | some e =>
        cases hb : buscar_coincidencia db e θ with
        | none => simp [clasificar, hb]
        | some r => simp [clasificar, hb]
  · intro db e θ h
    obtain ⟨a, as, hv⟩ := List.exists_cons_of_ne_nil h
    rw [recognize_spec db e θ a as hv]
    by_cases hb : θ < bestSim db e
    · rw [if_pos hb]
      exact ⟨_, _, rfl⟩
    · rw [if_neg hb]
      exact ⟨_, _, rfl⟩

/-- C2 (witness): the amended statement at concrete inputs: a `/clasificar`
cycle writing nothing and a `recognize` call writing exactly one row. -/
theorem C2_witness :
    (clasificar ⟨[], []⟩ (some [1, 0]) (7/10)).2 = [] ∧
    ∃ r en, recognize ⟨[], [(1, [1, 0])]⟩ [1, 0] 0 = .ok (r, [en]) :=
  ⟨C2_amended.1 _ _ _, C2_amended.2 _ _ _ (by simp [get_vectors])⟩

/-- C3: the claim (and the spec) says an empty enrolled set yields an empty
candidate list and a normal no-match completion.  `get_vectors` does return
the empty list, but `recognize` then raises `ValueError` at
`ids, stored_vectors = zip(*vectors)` before any logging, instead of
completing with a no-match outcome — the code contradicts the documented
contract (the sibling `buscar_coincidencia` path handles the same situation
gracefully), so this is a code bug, witnessed at the failing input. -/
theorem C3_code_bug :
    get_vectors ⟨[⟨7, "Ana", true⟩], []⟩ = [] ∧
    recognize ⟨[⟨7, "Ana", true⟩], []⟩ [1, 0] 0.6 =
      .error "ValueError: not enough values to unpack" :=
  ⟨rfl, recognize_empty _ _ _ rfl⟩

/-- C4 (counterexample): the claim says an above-threshold match on an
inactive identity is recorded as a rejection whose reason string differs from
the no-match reason.  In the code, identity 9 is inactive, its record exceeds
the threshold, and the outcome is byte-for-byte identical to the outcome with
the same identity active: an acceptance logged "Éxito" — not a rejection and
not distinct. -/
theorem C4_counterexample :
    isActive [⟨9, "Luis", false⟩] 9 = false ∧
    recognize ⟨[⟨9, "Luis", false⟩], [(9, [2, 0])]⟩ [1, 0] (1/2) =
      recognize ⟨[⟨9, "Luis", true⟩], [(9, [2, 0])]⟩ [1, 0] (1/2) ∧
    recognize ⟨[⟨9, "Luis", false⟩], [(9, [2, 0])]⟩ [1, 0] (1/2) =
      .ok ((some 9, 1), [⟨some 9, 1, "Éxito"⟩]) := by
  refine ⟨rfl, rfl, ?_⟩
  exact recognize_single _ 9 [2, 0] [1, 0] (1/2) cosineSim_e1_d1 (by norm_num)

/-- C4 (amended): `recognize` records only two outcomes — "Éxito" with the
identity when the top similarity exceeds the threshold, "Desconocido" with a
null identity otherwise.  The `personas` table (hence the active flag) is
never consulted: the result is identical for any two personas tables, so an
above-threshold match on an inactive identity is recorded exactly like an
active success, with no distinct 'recognized but inactive' reason string. -/
theorem C4_amended (p q : List Persona) (V : List (Nat × Vec)) (e : Vec)
    (θ : ℝ) (h : V ≠ []) :
    recognize ⟨p, V⟩ e θ = recognize ⟨q, V⟩ e θ ∧
    recognize ⟨p, V⟩ e θ =
      if θ < bestSim ⟨p, V⟩ e then
        .ok ((some (bestId ⟨p, V⟩ e), bestSim ⟨p, V⟩ e),
             [⟨some (bestId ⟨p, V⟩ e), bestSim ⟨p, V⟩ e, "Éxito"⟩])
      else
        .ok ((none, bestSim ⟨p, V⟩ e),
             [⟨none, bestSim ⟨p, V⟩ e, "Desconocido"⟩]) := by
  obtain ⟨a, as, hv⟩ := List.exists_cons_of_ne_nil h
  exact ⟨rfl, recognize_spec ⟨p, V⟩ e θ a as hv⟩

/-- C4 (witness): the amended statement at a concrete one-record enrolment
with an inactive persona on one side and an active one on the other. -/
theorem C4_witness :
    ([(3, [1, 0])] : List (Nat × Vec)) ≠ [] ∧
    (recognize ⟨[⟨3, "Eva", false⟩], [(3, [1, 0])]⟩ [1, 0] (1/3) =
        recognize ⟨[⟨3, "Eva", true⟩], [(3, [1, 0])]⟩ [1, 0] (1/3) ∧
      recognize ⟨[⟨3, "Eva", false⟩], [(3, [1, 0])]⟩ [1, 0] (1/3) =
        if (1/3 : ℝ) < bestSim ⟨[⟨3, "Eva", false⟩], [(3, [1, 0])]⟩ [1, 0] then
          .ok ((some (bestId ⟨[⟨3, "Eva", false⟩], [(3, [1, 0])]⟩ [1, 0]),
                bestSim ⟨[⟨3, "Eva", false⟩], [(3, [1, 0])]⟩ [1, 0]),
               [⟨some (bestId ⟨[⟨3, "Eva", false⟩], [(3, [1, 0])]⟩ [1, 0]),
                 bestSim ⟨[⟨3, "Eva", false⟩], [(3, [1, 0])]⟩ [1, 0], "Éxito"⟩])
        else
          .ok ((none, bestSim ⟨[⟨3, "Eva", false⟩], [(3, [1, 0])]⟩ [1, 0]),
               [⟨none, bestSim ⟨[⟨3, "Eva", false⟩], [(3, [1, 0])]⟩ [1, 0],
                 "Desconocido"⟩])) :=
  ⟨by simp, C4_amended [⟨3, "Eva", false⟩] [⟨3, "Eva", true⟩] [(3, [1, 0])]
    [1, 0] (1/3) (by simp)⟩

/-- C5: for every non-empty enrolled set and query, the record index
`max_idx` selected by the match step is a valid record index whose similarity
is maximal over all enrolled records (per record, not per identity), and any
candidate `recognize` accepts is exactly that record's identity with that
record's similarity. -/
theorem C5_top_candidate (db : DB) (e : Vec) (θ : ℝ)
    (h : get_vectors db ≠ []) :
    (argmaxIdx (recognizeSims db e) < (get_vectors db).length ∧
      ∀ j, j < (get_vectors db).length →
        (recognizeSims db e).getD j 0 ≤ bestSim db e) ∧
    ∀ i s log, recognize db e θ = .ok ((some i, s), log) →
      i = ((get_vectors db).map Prod.fst).getD
            (argmaxIdx (recognizeSims db e)) 0 ∧
      s = bestSim db e := by
  obtain ⟨a, as, hv⟩ := List.exists_cons_of_ne_nil h
  have hlen2 : (recognizeSims db e).length = (get_vectors db).length :=
    recognizeSims_length db e
  refine ⟨⟨?_, ?_⟩, ?_⟩
  · rw [← hlen2]
    refine argmaxIdx_lt_length _ ?_
    intro hnil
    rw [hnil, hv] at hlen2
    exact absurd hlen2.symm (by simp)
  · intro j hj
    rw [bestSim]
    exact getD_le_argmaxIdx _ j (by rw [hlen2]; exact hj)
  · intro i s log hacc
    rw [recognize_spec db e θ a as hv] at hacc
    by_cases hb : θ < bestSim db e
    · rw [if_pos hb] at hacc
      simp only [Except.ok.injEq, Prod.mk.injEq, Option.some.injEq] at hacc
      obtain ⟨⟨hid, hs⟩, -⟩ := hacc
      exact ⟨by rw [← hid, bestId], hs.symm⟩
    · rw [if_neg hb] at hacc
      simp at hacc

/-- C5 (witness): the selected record at a concrete one-record enrolment
attains the maximal similarity, and the accepted candidate is that record. -/
theorem C5_witness :
    get_vectors ⟨[], [(4, [1, 0])]⟩ ≠ [] ∧
    ((argmaxIdx (recognizeSims ⟨[], [(4, [1, 0])]⟩ [1, 0]) <
        (get_vectors ⟨[], [(4, [1, 0])]⟩).length ∧
      ∀ j, j < (get_vectors ⟨[], [(4, [1, 0])]⟩).length →
        (recognizeSims ⟨[], [(4, [1, 0])]⟩ [1, 0]).getD j 0 ≤
          bestSim ⟨[], [(4, [1, 0])]⟩ [1, 0]) ∧
    ∀ i s log, recognize ⟨[], [(4, [1, 0])]⟩ [1, 0] (1/2) =
        .ok ((some i, s), log) →
      i = ((get_vectors ⟨[], [(4, [1, 0])]⟩).map Prod.fst).getD
            (argmaxIdx (recognizeSims ⟨[], [(4, [1, 0])]⟩ [1, 0])) 0 ∧
      s = bestSim ⟨[], [(4, [1, 0])]⟩ [1, 0]) :=
  ⟨by simp [get_vectors],
   C5_top_candidate _ _ (1/2) (by simp [get_vectors])⟩

/-- C6: threshold monotonicity.  If `recognize` accepts candidate `(i, s)`
at threshold `θ2`, it accepts the very same candidate, with the same log
entry, at any threshold `θ1 ≤ θ2`. -/
theorem C6_threshold_monotone (db : DB) (e : Vec) (θ1 θ2 : ℝ)
    (hθ : θ1 ≤ θ2) (i : Nat) (s : ℝ) (log : List LogEntry)
    (hacc : recognize db e θ2 = .ok ((some i, s), log)) :
    recognize db e θ1 = .ok ((some i, s), log) := by
  cases hv : get_vectors db with
  | nil =>
      rw [recognize_empty db e θ2 hv] at hacc
      exact absurd hacc (by simp)
  | cons a as =>
      rw [recognize_spec db e θ2 a as hv] at hacc
      rw [recognize_spec db e θ1 a as hv]
      by_cases hb : θ2 < bestSim db e
      · rw [if_pos hb] at hacc
        rw [if_pos (lt_of_le_of_lt hθ hb)]
        exact hacc
      · rw [if_neg hb] at hacc
        simp at hacc

/-- C6 (witness): lowering the threshold from 1/2 to 1/4 preserves the
accept decision, candidate and log at a concrete enrolment. -/
theorem C6_witness :
    (1/4 : ℝ) ≤ 1/2 ∧
    recognize ⟨[], [(3, [1, 0])]⟩ [1, 0] (1/4) =
      .ok ((some 3, 1), [⟨some 3, 1, "Éxito"⟩]) :=
  ⟨by norm_num,
   C6_threshold_monotone _ _ (1/4) (1/2) (by norm_num) 3 1 _
     (recognize_single [] 3 [1, 0] [1, 0] (1/2) cosineSim_e1_e1 (by norm_num))⟩

/-- C7 (counterexample): the claim says the record whose vector equals the
query is the top candidate.  With enrolment `[(1, [2,0]), (2, [1,0])]` and
query `[1,0]`, record index 1 equals the query, but record 0 (vector `[2,0]`,
a scalar multiple, also similarity 1) is selected as top candidate and
identity 1 — not identity 2 — is accepted. -/
theorem C7_counterexample :
    ((get_vectors ⟨[], [(1, [2, 0]), (2, [1, 0])]⟩).getD 1 (0, [])).2 =
      [1, 0] ∧
    ((get_vectors ⟨[], [(1, [2, 0]), (2, [1, 0])]⟩).getD 0 (0, [])).2 ≠
      [1, 0] ∧
    argmaxIdx (recognizeSims ⟨[], [(1, [2, 0]), (2, [1, 0])]⟩ [1, 0]) = 0 ∧
    recognize ⟨[], [(1, [2, 0]), (2, [1, 0])]⟩ [1, 0] (1/2) =
      .ok ((some 1, 1), [⟨some 1, 1, "Éxito"⟩]) := by
  have hsims : recognizeSims ⟨[], [(1, [2, 0]), (2, [1, 0])]⟩ [1, 0] =
      [1, 1] := by
    simp [recognizeSims, get_vectors, cosineSim_e1_d1, cosineSim_e1_e1]
  have hidx : argmaxIdx ([1, 1] : List ℝ) = 0 := by
    norm_num [argmaxIdx]
  have hbest : bestSim ⟨[], [(1, [2, 0]), (2, [1, 0])]⟩ [1, 0] = 1 := by
    rw [bestSim, hsims, hidx]
    rfl
  have hbid : bestId ⟨[], [(1, [2, 0]), (2, [1, 0])]⟩ [1, 0] = 1 := by
    rw [bestId, hsims, hidx]
    rfl
  refine ⟨rfl, by norm_num [get_vectors, List.getD], by rw [hsims, hidx], ?_⟩
  rw [recognize_spec ⟨[], [(1, [2, 0]), (2, [1, 0])]⟩ [1, 0] (1/2)
      (1, [2, 0]) [(2, [1, 0])] rfl, hbest, hbid,
    if_pos (by norm_num : (1/2 : ℝ) < 1)]

/-- C7 (amended): if a non-zero query vector exactly equals the vector of
enrolled record `j`, then record `j`'s similarity is exactly 1 and the top
candidate's similarity (`sims[max_idx]`) is also exactly 1; when several
records attain similarity 1 the earliest one is selected, which need not be
record `j` itself. -/
theorem C7_amended (db : DB) (E : Vec) (j : Nat)
    (hE : ∃ x ∈ E, x ≠ 0)
    (hj : j < (get_vectors db).length)
    (hEq : ((get_vectors db).getD j (0, [])).2 = E) :
    (recognizeSims db E).getD j 0 = 1 ∧ bestSim db E = 1 := by
  have hjval : (recognizeSims db E).getD j 0 = 1 := by
    rw [recognizeSims_getD db E j hj, hEq]
    exact cosineSim_self E hE
  refine ⟨hjval, ?_⟩
  have hlen : (recognizeSims db E).length = (get_vectors db).length :=
    recognizeSims_length db E
  have hjs : j < (recognizeSims db E).length := by
    rw [hlen]; exact hj
  have hge : 1 ≤ bestSim db E := by
    rw [← hjval, bestSim]
    exact getD_le_argmaxIdx _ j hjs
  have hne : recognizeSims db E ≠ [] := by
    intro hnil
    rw [hnil] at hjs
    exact absurd hjs (by simp)
  have hk : argmaxIdx (recognizeSims db E) < (recognizeSims db E).length :=
    argmaxIdx_lt_length _ hne
  have hle : bestSim db E ≤ 1 := by
    rw [bestSim, recognizeSims_getD db E _ (by rw [← hlen]; exact hk)]
    exact cosineSim_le_one _ _
  exact le_antisymm hle hge

/-- C7 (witness): the amended round-trip property at a concrete enrolment
containing the query vector itself. -/
theorem C7_witness :
    (∃ x ∈ ([1, 0] : Vec), x ≠ 0) ∧
    0 < (get_vectors ⟨[], [(5, [1, 0])]⟩).length ∧
    ((get_vectors ⟨[], [(5, [1, 0])]⟩).getD 0 (0, [])).2 = [1, 0] ∧
    (recognizeSims ⟨[], [(5, [1, 0])]⟩ [1, 0]).getD 0 0 = 1 ∧
    bestSim ⟨[], [(5, [1, 0])]⟩ [1, 0] = 1 := by
  have h := C7_amended ⟨[], [(5, [1, 0])]⟩ [1, 0] 0
    ⟨1, by simp, one_ne_zero⟩ (by simp [get_vectors]) rfl
  exact ⟨⟨1, by simp, one_ne_zero⟩, by simp [get_vectors], rfl, h.1, h.2⟩

/-- C8 (counterexample): the claim says t = 19:30 maps to SALIDA.  With
entry 08:00, tolerance 10 and exit 17:00 the post-shift grace window ends at
`limit_exit = 19:00`, and since 19:30 > 19:00 the classifier modelled from
the spec's own window contract maps 19:30 (= minute 1170) to HORAS_EXTRAS
with 0.5 overtime hours, not SALIDA. -/
theorem C8_counterexample :
    classify 1170 (some defaultShift) = (.HORAS_EXTRAS, 1/2, true) ∧
    Etiqueta.HORAS_EXTRAS ≠ Etiqueta.SALIDA := by
  refine ⟨?_, by simp⟩
  norm_num [classify, defaultShift]

/-- C8 (amended): for the shift entry 08:00 / tolerance 10 / exit 17:00
(minutes 480, 10, 1020; `limit_entry` = 08:10, `limit_exit` = 19:00):
08:05 → ENTRADA; 08:15 → RETRASO; 16:59 → RETRASO; 17:30 → SALIDA; 19:00
(boundary, inclusive) → SALIDA; 19:01 → HORAS_EXTRAS; 19:30 → HORAS_EXTRAS
with 0.5 overtime hours; 07:00 → HORAS_EXTRAS with exactly 1.0 overtime
hours. -/
theorem C8_amended :
    (classify 485 (some defaultShift)).1 = .ENTRADA ∧
    (classify 495 (some defaultShift)).1 = .RETRASO ∧
    (classify 1019 (some defaultShift)).1 = .RETRASO ∧
    (classify 1050 (some defaultShift)).1 = .SALIDA ∧
    (classify 1140 (some defaultShift)).1 = .SALIDA ∧
    (classify 1141 (some defaultShift)).1 = .HORAS_EXTRAS ∧
    classify 1170 (some defaultShift) = (.HORAS_EXTRAS, 1/2, true) ∧
    classify 420 (some defaultShift) = (.HORAS_EXTRAS, 1, true) := by
  refine ⟨?_, ?_, ?_, ?_, ?_, ?_, ?_, ?_⟩ <;> norm_num [classify, defaultShift]

/-- C9: `recognize` is a pure function of its inputs (two runs with
identical inputs are identical), and ties in the maximal similarity are
broken deterministically towards the earliest enrolled record: every record
before the selected index has strictly smaller similarity, so any record
attaining the selected (maximal) similarity has index at least the selected
one. -/
theorem C9_deterministic_tiebreak (db : DB) (e : Vec) (θ : ℝ) :
    recognize db e θ = recognize db e θ ∧
    (∀ j, j < argmaxIdx (recognizeSims db e) →
      (recognizeSims db e).getD j 0 < bestSim db e) ∧
    (∀ j, (recognizeSims db e).getD j 0 = bestSim db e →
      argmaxIdx (recognizeSims db e) ≤ j) := by
  refine ⟨rfl, ?_, ?_⟩
  · intro j hj
    rw [bestSim]
    exact getD_lt_argmaxIdx_of_lt _ j hj
  · intro j hj
    rw [bestSim] at hj
    exact argmaxIdx_le_of_getD_eq _ j hj

/-- C9 (witness): a genuine tie — records 1 and 2 both have similarity 1 to
the query — where the theorem yields that the selected index is at most 1,
and evaluation shows it is in fact the earliest (index 0). -/
theorem C9_witness :
    (recognizeSims ⟨[], [(1, [1, 0]), (2, [2, 0])]⟩ [1, 0]).getD 1 0 =
      bestSim ⟨[], [(1, [1, 0]), (2, [2, 0])]⟩ [1, 0] ∧
    argmaxIdx (recognizeSims ⟨[], [(1, [1, 0]), (2, [2, 0])]⟩ [1, 0]) ≤ 1 := by
  have hsims : recognizeSims ⟨[], [(1, [1, 0]), (2, [2, 0])]⟩ [1, 0] =
      [1, 1] := by
    simp [recognizeSims, get_vectors, cosineSim_e1_e1, cosineSim_e1_d1]
  have hidx : argmaxIdx ([1, 1] : List ℝ) = 0 := by
    norm_num [argmaxIdx]
  have heq : (recognizeSims ⟨[], [(1, [1, 0]), (2, [2, 0])]⟩ [1, 0]).getD 1 0 =
      bestSim ⟨[], [(1, [1, 0]), (2, [2, 0])]⟩ [1, 0] := by
    rw [bestSim, hsims, hidx]
    rfl
  exact ⟨heq,
    (C9_deterministic_tiebreak ⟨[], [(1, [1, 0]), (2, [2, 0])]⟩ [1, 0]
      (1/2)).2.2 1 heq⟩

/-- C10: on a non-empty enrolled set, `recognize` returns, and logs, the
same confidence value `sims[max_idx]` in both branches — the returned pair
and the single written log row carry the identical identity field and the
identical confidence, and that confidence is the maximum similarity over all
enrolled records, reported even when the match is rejected. -/
theorem C10_confidence_reported (db : DB) (e : Vec) (θ : ℝ)
    (h : get_vectors db ≠ []) :
    ∃ oid res, recognize db e θ =
        .ok ((oid, bestSim db e), [⟨oid, bestSim db e, res⟩]) ∧
      ∀ j, j < (get_vectors db).length →
        (recognizeSims db e).getD j 0 ≤ bestSim db e := by
  obtain ⟨a, as, hv⟩ := List.exists_cons_of_ne_nil h
  have hmax : ∀ j, j < (get_vectors db).length →
      (recognizeSims db e).getD j 0 ≤ bestSim db e := by
    intro j hj
    rw [bestSim]
    exact getD_le_argmaxIdx _ j (by rw [recognizeSims_length]; exact hj)
  rw [recognize_spec db e θ a as hv]
  by_cases hb : θ < bestSim db e
  · rw [if_pos hb]
    exact ⟨some (bestId db e), "Éxito", rfl, hmax⟩
  · rw [if_neg hb]
    exact ⟨none, "Desconocido", rfl, hmax⟩

/-- C10 (witness): the returned-and-logged confidence equals the maximal
similarity at a concrete one-record enrolment. -/
theorem C10_witness :
    get_vectors ⟨[], [(6, [1, 0])]⟩ ≠ [] ∧
    ∃ oid res, recognize ⟨[], [(6, [1, 0])]⟩ [1, 0] (1/2) =
        .ok ((oid, bestSim ⟨[], [(6, [1, 0])]⟩ [1, 0]),
             [⟨oid, bestSim ⟨[], [(6, [1, 0])]⟩ [1, 0], res⟩]) ∧
      ∀ j, j < (get_vectors ⟨[], [(6, [1, 0])]⟩).length →
        (recognizeSims ⟨[], [(6, [1, 0])]⟩ [1, 0]).getD j 0 ≤
          bestSim ⟨[], [(6, [1, 0])]⟩ [1, 0] :=
  ⟨by simp [get_vectors], C10_confidence_reported _ _ _ (by simp [get_vectors])⟩

end BioGate
